import Mathlib

/-!
Shallow embedding of the `structural_growth` pipeline (src/py/01..05) in Lean 4.

Conventions of the embedding:
* a pandas DataFrame becomes a `List` of records (row order is the pandas row
  order); a missing cell (NaN/None) becomes `none`;
* machine floats that only ever carry exact data values are modelled as `Rat`;
* file I/O is modelled by passing the file's contents as a value and returning
  the value that would be written;
* pandas `drop_duplicates` / `Series.unique` keep the first occurrence of each
  element, embedded here as `pdUnique`;
* the sort of the final coverage tables (`sort_values`) only permutes report
  rows and is not modelled: no claim concerns the ordering of report rows.
-/

attribute [local semireducible] Rat.mul Rat.add Rat.inv

/-- Accumulator loop of `pdUnique`: scan the list left to right keeping each
value's first occurrence. -/
def pdUniqueAux {α : Type} [DecidableEq α] (acc : List α) : List α → List α
  | [] => acc
  | a :: t => pdUniqueAux (if a ∈ acc then acc else acc ++ [a]) t

/-- First-occurrence deduplication: the embedding of pandas
`drop_duplicates` / `Series.unique`, which keep the first copy of each value
in row order. -/
def pdUnique {α : Type} [DecidableEq α] (l : List α) : List α :=
  pdUniqueAux [] l

theorem mem_pdUniqueAux {α : Type} [DecidableEq α] {x : α} :
    ∀ {l acc : List α}, x ∈ pdUniqueAux acc l ↔ x ∈ acc ∨ x ∈ l
  | [], acc => by simp [pdUniqueAux]
  | a :: t, acc => by
    rw [pdUniqueAux]
    rw [mem_pdUniqueAux (l := t)]
    by_cases ha : a ∈ acc
    · simp only [if_pos ha, List.mem_cons]
      constructor
      · rintro (h | h)
        · exact Or.inl h
        · exact Or.inr (Or.inr h)
      · rintro (h | h | h)
        · exact Or.inl h
        · exact Or.inl (h ▸ ha)
        · exact Or.inr h
    · simp only [if_neg ha, List.mem_append, List.mem_singleton, List.mem_cons]
      tauto

theorem mem_pdUnique {α : Type} [DecidableEq α] {x : α} {l : List α} :
    x ∈ pdUnique l ↔ x ∈ l := by
  rw [pdUnique, mem_pdUniqueAux]
  simp

theorem nodup_pdUniqueAux {α : Type} [DecidableEq α] :
    ∀ {l acc : List α}, acc.Nodup → (pdUniqueAux acc l).Nodup
  | [], acc => fun h => h
  | a :: t, acc => fun h => by
    rw [pdUniqueAux]
    refine nodup_pdUniqueAux ?_
    by_cases ha : a ∈ acc
    · simpa [if_pos ha] using h
    · rw [if_neg ha]
      refine List.Nodup.append h (List.nodup_singleton a) ?_
      intro b hb hb1
      rw [List.mem_singleton] at hb1
      subst hb1
      exact ha hb

theorem nodup_pdUnique {α : Type} [DecidableEq α] (l : List α) :
    (pdUnique l).Nodup :=
  nodup_pdUniqueAux List.nodup_nil

theorem pdUnique_ne_nil {α : Type} [DecidableEq α] {l : List α} (h : l ≠ []) :
    pdUnique l ≠ [] := by
  obtain ⟨a, ha⟩ := List.exists_mem_of_ne_nil l h
  intro hnil
  have : a ∈ pdUnique l := mem_pdUnique.mpr ha
  rw [hnil] at this
  exact List.not_mem_nil a this

instance {α β : Type} [DecidableEq α] [DecidableEq β] : DecidableEq (Except α β)
  | .error a, .error b =>
    if h : a = b then .isTrue (by rw [h]) else .isFalse (fun hc => by cases hc; exact h rfl)
  | .error _, .ok _ => .isFalse (fun hc => by cases hc)
  | .ok _, .error _ => .isFalse (fun hc => by cases hc)
  | .ok a, .ok b =>
    if h : a = b then .isTrue (by rw [h]) else .isFalse (fun hc => by cases hc; exact h rfl)

/-- A Python value as it appears in an object column before numeric coercion:
either a number or a string. -/
inductive PyVal : Type where
  | num (q : Rat)
  | str (s : String)
deriving DecidableEq, Repr

/-- Whitespace strip on a character list (kernel-reducible counterpart of
`String.trim`). -/
def trimChars (l : List Char) : List Char :=
  ((l.dropWhile Char.isWhitespace).reverse.dropWhile Char.isWhitespace).reverse

/-- Python `int(s)`: strips surrounding whitespace, accepts an optional sign
followed by at least one decimal digit.  (Exotic literals such as underscore
separators or non-ASCII digits do not occur in the data and are not
modelled.) -/
def pyIntParse (s : String) : Option Int :=
  let t := trimChars s.toList
  let core : List Char → Option Nat := fun ds =>
    if ds = [] then none
    else if ds.all Char.isDigit then
      some (ds.foldl (fun n c => 10 * n + (c.toNat - 48)) 0)
    else none
  match t with
  | '-' :: rest => (core rest).map (fun n => -(n : Int))
  | '+' :: rest => (core rest).map (fun n => (n : Int))
  | _ => (core t).map (fun n => (n : Int))

/-- Decimal-literal parse used to model `pd.to_numeric(..., errors="coerce")`
on strings: optional sign, digits, optional fractional part.  (Exponent forms
do not occur in the data and are not modelled.) -/
def pyRatParse (s : String) : Option Rat :=
  let t := trimChars s.toList
  let digitsVal : List Char → Nat := fun ds =>
    ds.foldl (fun n c => 10 * n + (c.toNat - 48)) 0
  let core : List Char → Option Rat := fun ds =>
    let intPart := ds.takeWhile Char.isDigit
    let rest := ds.dropWhile Char.isDigit
    match rest with
    | [] =>
      if intPart = [] then none
      else some ((digitsVal intPart : Int) : Rat)
    | '.' :: frac =>
      if frac.all Char.isDigit ∧ ¬(intPart = [] ∧ frac = []) then
        some (((digitsVal intPart : Int) : Rat) +
          ((digitsVal frac : Int) : Rat) / ((10 : Rat) ^ frac.length))
      else none
    | _ => none
  match t with
  | '-' :: rest => (core rest).map (fun q => -q)
  | '+' :: rest => core rest
  | _ => core t

/-- The numeric coercion `pd.to_numeric(col, errors="coerce")` applied to one
cell of an object column: numbers pass through, numeric-looking strings parse,
everything else becomes missing. -/
def pyToNumeric : Option PyVal → Option Rat
  | none => none
  | some (.num q) => some q
  | some (.str s) => pyRatParse s

/-- Python `str(x)` applied to a possibly-missing cell, as `astype(str)` does:
a NaN cell prints as the string `nan`. -/
def pyStr : Option String → String
  | none => "nan"
  | some s => s

/-- One long observation: a row of the canonical long schema
`iso3, year, indicator_code, value` shared by the stage 03/04/05 inputs. -/
structure Obs : Type where
  iso3 : String
  year : Int
  code : String
  value : Option Rat
deriving DecidableEq, Repr

/-- One row of an indicator registry CSV restricted to the four columns
`pillar, indicator_code, indicator_name, source` (metadata cells may be
missing). -/
structure RegRow : Type where
  code : String
  pillar : Option String
  name : Option String
  source : Option String
deriving DecidableEq, Repr

/-- The common shape of a merged long row as consumed by the coverage report
of stages 03 and 05: the long observation plus the joined `pillar` and
`indicator_name` metadata (the only columns the report reads). -/
structure CovIn : Type where
  iso3 : String
  year : Int
  code : String
  value : Option Rat
  pillar : Option String
  name : Option String
deriving DecidableEq, Repr

/-- One row of a coverage report: the columns written by both
`03_merge_wdi_weo.py` and `05_em_coverage_wide.py`. -/
structure CovRow : Type where
  pillar : Option String
  code : String
  name : Option String
  nonMissing : Nat
  gridN : Nat
  covPct : Rat
  cov2000 : Option Rat
  cov2010 : Option Rat
deriving DecidableEq, Repr

/-- The year-window restriction of `window_cov` (`win`). -/
def windowRows (rows : List CovIn) (lo hi : Int) : List CovIn :=
  rows.filter (fun r => lo ≤ r.year ∧ r.year ≤ hi)

/-- The window grid size of `window_cov` (`grid_win`): the number of distinct
`(iso3, year)` pairs observed inside the year window. -/
def windowGrid (rows : List CovIn) (lo hi : Int) : Nat :=
  (pdUnique ((windowRows rows lo hi).map (fun r => (r.iso3, r.year)))).length

/-- The per-indicator non-missing count of `window_cov` inside the window. -/
def windowNM (rows : List CovIn) (lo hi : Int) (c : String) : Nat :=
  ((windowRows rows lo hi).filter (fun r => r.value.isSome ∧ r.code = c)).length

/-- Embedding of `window_cov` (identical in `03_merge_wdi_weo.py` and
`05_em_coverage_wide.py`): restrict to the year window, group the non-missing
rows by `indicator_code` (one group per code carrying a non-missing value in
the window), and divide each group count by the window grid size; the source
guards the division with `if grid_win else 0`. -/
def windowCov (rows : List CovIn) (lo hi : Int) : List (String × Rat) :=
  (pdUnique (((windowRows rows lo hi).filter (fun r => r.value.isSome)).map
    (fun r => r.code))).map (fun c =>
    (c, if windowGrid rows lo hi = 0 then 0
        else ((windowNM rows lo hi c : Rat) / (windowGrid rows lo hi : Rat)) * 100))

/-- The grid of the coverage report (`grid_n`): the number of distinct
`(iso3, year)` pairs of the merged panel. -/
def covGrid (rows : List CovIn) : Nat :=
  (pdUnique (rows.map (fun r => (r.iso3, r.year)))).length

/-- The group keys of the coverage report: the distinct
`(pillar, indicator_code, indicator_name)` triples (with `dropna=False`,
null keys kept) among rows with a non-missing value. -/
def covKeys (rows : List CovIn) : List (Option String × String × Option String) :=
  pdUnique ((rows.filter (fun r => r.value.isSome)).map
    (fun r => (r.pillar, r.code, r.name)))

/-- The `non_missing` aggregate of one coverage group. -/
def covNonMissing (rows : List CovIn)
    (k : Option String × String × Option String) : Nat :=
  ((rows.filter (fun r => r.value.isSome)).filter
    (fun r => (r.pillar, r.code, r.name) = k)).length

/-- Embedding of the coverage report shared by `03_merge_wdi_weo.py`
(lines 51-88) and `05_em_coverage_wide.py` (lines 46-74): the grid is the set
of distinct `(iso3, year)` pairs of the merged panel, groups are formed with
`dropna=False` over `(pillar, indicator_code, indicator_name)` among rows with
a non-missing value, and the two window coverages are attached by a left
merge on `indicator_code`.  (The final `sort_values` only reorders report
rows and is not modelled.) -/
def covReport (rows : List CovIn) : List CovRow :=
  (covKeys rows).map (fun k =>
    { pillar := k.1
      code := k.2.1
      name := k.2.2
      nonMissing := covNonMissing rows k
      gridN := covGrid rows
      covPct := ((covNonMissing rows k : Rat) / (covGrid rows : Rat)) * 100
      cov2000 := ((windowCov rows 2000 2024).find? (fun p => p.1 = k.2.1)).map
        (fun p => p.2)
      cov2010 := ((windowCov rows 2010 2024).find? (fun p => p.1 = k.2.1)).map
        (fun p => p.2) })

/-- A merged row of stage 05 after the metadata join: the long observation
plus the baseline registry columns (suffix-free, per the script). -/
structure MRow : Type where
  iso3 : String
  year : Int
  code : String
  value : Option Rat
  pillar : Option String
  name : Option String
  src : Option String
deriving DecidableEq, Repr

/-- The `keep` set of `05_em_coverage_wide.py` line 31: all indicator codes of
the baseline registry. -/
def stage5Keep (reg : List RegRow) : List String :=
  reg.map (fun m => m.code)

/-- Line 32 of `05_em_coverage_wide.py`: restrict the panel to baseline
indicators with an `isin` membership filter. -/
def stage5Filtered (panel : List Obs) (reg : List RegRow) : List Obs :=
  panel.filter (fun r => r.code ∈ stage5Keep reg)

/-- Line 35: `reg_small`, the registry restricted to the four metadata columns
with `drop_duplicates`. -/
def regSmall (reg : List RegRow) : List RegRow :=
  pdUnique reg

/-- The merged rows produced by one left-frame row in a pandas left merge on
`indicator_code`: one row per matching right-frame row, in right-frame order,
or a single row with null metadata when there is no match. -/
def mergeBlock5 (reg : List RegRow) (r : Obs) : List MRow :=
  let ms := reg.filter (fun m => m.code = r.code)
  if ms.isEmpty then
    [⟨r.iso3, r.year, r.code, r.value, none, none, none⟩]
  else
    ms.map (fun m => ⟨r.iso3, r.year, r.code, r.value, m.pillar, m.name, m.source⟩)

/-- The left merge of line 36: every panel row is joined with every matching
`reg_small` row, in right-frame order; a row with no match keeps null
metadata. -/
def mergeLeft5 (panel : List Obs) (reg : List RegRow) : List MRow :=
  panel.flatMap (mergeBlock5 reg)

/-- The merged stage-05 panel (lines 30-36): filter to baseline codes, then
left-join the deduplicated registry metadata. -/
def stage5Merged (panel : List Obs) (reg : List RegRow) : List MRow :=
  mergeLeft5 (stage5Filtered panel reg) (regSmall reg)

/-- Line 40: the offending codes of the hard pillar check, in first-appearance
order (`Series.unique`). -/
def stage5Bad (panel : List Obs) (reg : List RegRow) : List String :=
  pdUnique (((stage5Merged panel reg).filter (fun m => m.pillar = none)).map
    (fun m => m.code))

/-- The message of the `ValueError` raised at line 41. -/
def stage5ErrMsg (bad : List String) : String :=
  "Missing pillar for indicator_code(s): " ++ toString bad ++ ". Check registry file."

/-- Projection of a merged stage-05 row to the columns the coverage report
reads. -/
def covView5 (m : MRow) : CovIn :=
  ⟨m.iso3, m.year, m.code, m.value, m.pillar, m.name⟩

/-- The stage-05 coverage report (lines 46-74), computed from the merged
panel. -/
def stage5Cov (panel : List Obs) (reg : List RegRow) : List CovRow :=
  covReport ((stage5Merged panel reg).map covView5)

/-- The index of the stage-05 wide table (lines 81-86): `pivot_table` with
`dropna=True` keeps exactly the `(iso3, year)` pairs that carry at least one
non-missing value (rows whose cells are all NaN are dropped); the ascending
index sort only reorders rows and is not modelled. -/
def stage5WideIndex (panel : List Obs) (reg : List RegRow) : List (String × Int) :=
  pdUnique (((stage5Merged panel reg).filter (fun m => m.value.isSome)).map
    (fun m => (m.iso3, m.year)))

/-- The columns of the stage-05 wide table: `pivot_table` with `dropna=True`
keeps exactly the indicator codes that carry at least one non-missing
value. -/
def stage5WideCols (panel : List Obs) (reg : List RegRow) : List String :=
  pdUnique (((stage5Merged panel reg).filter (fun m => m.value.isSome)).map
    (fun m => m.code))

/-- One cell of the stage-05 wide table: `aggfunc="first"` is the pandas
group-first, i.e. the first non-missing value for the `(iso3, year, code)`
combination in panel row order. -/
def stage5Cell (panel : List Obs) (reg : List RegRow)
    (iso : String) (y : Int) (c : String) : Option Rat :=
  (((stage5Merged panel reg).filter
    (fun m => m.iso3 = iso ∧ m.year = y ∧ m.code = c ∧ m.value.isSome)).head?).bind
    (fun m => m.value)

/-- The artifacts persisted by a successful stage-05 run. -/
structure Stage5Out : Type where
  cov : List CovRow
  wideIndex : List (String × Int)
  wideCols : List String
deriving DecidableEq, Repr

/-- Embedding of `main` of `05_em_coverage_wide.py`: filter to baseline
indicators, join the registry metadata, abort with the descriptive
`ValueError` when any merged row has a null pillar, otherwise produce the
coverage report and the wide table.  (The non-fatal `indicator_name` warning
is a print only and is not modelled.) -/
def stage5 (panel : List Obs) (reg : List RegRow) : Except String Stage5Out :=
  if stage5Bad panel reg ≠ [] then
    .error (stage5ErrMsg (stage5Bad panel reg))
  else
    .ok { cov := stage5Cov panel reg
          wideIndex := stage5WideIndex panel reg
          wideCols := stage5WideCols panel reg }

/-- One observation item of a provider indicator page, with the fields read by
`consume` in `01_pull_wdi.py`: `countryiso3code`, `date` and `value`; the
first two are strings when present, the value is kept as reported. -/
structure WdiItem : Type where
  iso3 : Option String
  date : Option String
  value : Option PyVal
deriving DecidableEq, Repr

/-- One emitted row of the per-indicator pull: `(iso3, year, indicator_code,
value_as_reported)`. -/
structure WdiRow : Type where
  iso3 : String
  year : Int
  code : String
  value : Option PyVal
deriving DecidableEq, Repr

/-- Python truthiness test `not s` for an optional string: true for a missing
value and for the empty string. -/
def pyFalsy : Option String → Bool
  | none => true
  | some s => s = ""

/-- Embedding of the `consume` loop of `01_pull_wdi.py` lines 141-159, one
item at a time, mirroring the `continue` chain: skip on falsy country code or
date, skip when the code is not whitelisted, skip when `int(date)` raises,
otherwise append the row. -/
def consume (valid : List String) (code : String) : List WdiItem → List WdiRow
  | [] => []
  | it :: rest =>
    if pyFalsy it.iso3 ∨ pyFalsy it.date then consume valid code rest
    else if (pyStr it.iso3) ∉ valid then consume valid code rest
    else
      match pyIntParse (pyStr it.date) with
      | none => consume valid code rest
      | some y => ⟨pyStr it.iso3, y, code, it.value⟩ :: consume valid code rest

/-- Modelled from the claim wording for comparison with `consume`: the
per-item rule of the spec, "skip if country code or year is missing, skip if
country code is not in the whitelist, skip if year cannot be parsed as an
integer; otherwise emit `(iso3, year, indicator_code, value_as_reported)`". -/
def consumeSpecRule (valid : List String) (code : String) (it : WdiItem) :
    Option WdiRow :=
  match it.iso3, it.date with
  | some iso, some d =>
    if iso = "" ∨ d = "" then none
    else if iso ∈ valid then
      (pyIntParse d).map (fun y => ⟨iso, y, code, it.value⟩)
    else none
  | _, _ => none

/-- A cleaned output row of stage 01 after `pd.to_numeric` coercion. -/
structure CleanRow : Type where
  iso3 : String
  year : Int
  code : String
  value : Option Rat
deriving DecidableEq, Repr

/-- The abort message of `01_pull_wdi.py` line 220. -/
def noDataMsg : String :=
  "No data downloaded (all indicators failed or returned empty)."

/-- Embedding of the tail of `main` in `01_pull_wdi.py` (lines 205-228).  The
per-indicator loop is abstracted by its outcomes: one `Except` per indicator
code, `ok` with the fetched rows (possibly empty) on success, `error` when the
fetch raised and the exception was caught and recorded.  `all_parts` collects
every success; the run aborts iff it is empty.  The final `dropna` on
`iso3`/`year` is a no-op here because `consume` only emits rows with both
fields present.  `pullParts` is the `all_parts` list accumulated by the loop
(every successful fetch, empty results included), written as the fold the
loop performs; `mainPull` is the abort check and output construction. -/
def pullParts (results : List (Except String (List WdiRow))) : List (List WdiRow) :=
  results.foldl
    (fun (acc : List (List WdiRow)) r =>
      match r with
      | .ok df => acc ++ [df]
      | .error _ => acc) []

def mainPull (results : List (Except String (List WdiRow))) :
    Except String (List CleanRow) :=
  if (pullParts results).isEmpty then .error noDataMsg
  else .ok (((pullParts results).flatten).map
    (fun r => ⟨r.iso3, r.year, r.code, pyToNumeric r.value⟩))

/-- One entry of a provider country page, with the fields read by
`fetch_real_country_iso3`: `id`, `iso3Code`, `name`, `region.id` and
`incomeLevel.value`. -/
structure CountryItem : Type where
  id : Option String
  iso3Code : Option String
  name : Option String
  regionId : Option String
  incomeName : Option String
deriving DecidableEq, Repr

/-- The paginated country endpoint as seen by one run: the page count declared
by the meta block of the first response, and the item list of each page
(`none` for a malformed page, which the loop skips with `continue`). -/
structure CountrySide : Type where
  pages : Nat
  pageAt : List (Option (List CountryItem))
deriving DecidableEq, Repr

/-- One row of the country whitelist cache CSV
(`iso3, country_name, income_group`); any cell of a generic cache file may be
missing. -/
def CacheRow : Type := Option String × Option String × Option String

instance : DecidableEq CacheRow := by
  unfold CacheRow
  infer_instance

/-- Python `a or b` on two optional strings: the left operand when truthy,
otherwise the right one. -/
def pyOr (a b : Option String) : Option String :=
  match a with
  | some s => if s = "" then b else some s
  | none => b

/-- The per-item filter of the country loop (lines 85-100 of
`01_pull_wdi.py`): resolve the ISO3 code as `id or iso3Code`, drop falsy codes
and aggregates (`region.id == "NA"`), keep `(iso3, name, income_name)`. -/
def countryKeep (it : CountryItem) : Option CacheRow :=
  let iso3 := pyOr it.id it.iso3Code
  if pyFalsy iso3 ∨ it.regionId = some "NA" then none
  else some (iso3, it.name, it.incomeName)

/-- The rebuilt country cache (lines 75-104): scan pages 1..pages, skip
malformed pages, keep filtered items, `drop_duplicates`. -/
def buildCache (remote : CountrySide) : List CacheRow :=
  pdUnique ((List.range remote.pages).flatMap
    (fun i =>
      match remote.pageAt.getD i none with
      | none => []
      | some items => items.filterMap countryKeep))

/-- The whitelist extraction `set(df["iso3"].dropna().astype(str).unique())`
used by both the cache branch and the rebuild branch; the set is represented
by the first-occurrence list of its elements. -/
def extractCodes (df : List CacheRow) : List String :=
  pdUnique (df.filterMap (fun row => row.1))

/-- Embedding of `fetch_real_country_iso3` (lines 47-108): when a cache file
exists, refresh is not requested and the cache holds at least one non-missing
`iso3`, load the whitelist from the cache and leave it untouched; otherwise
rebuild from the provider and write the new cache.  Returns the whitelist and
the cache file content after the run.  (Transport failures of the single-call
country fetch abort the run and are outside this value-level model.) -/
def fetchReal (cache : Option (List CacheRow)) (refresh : Bool)
    (remote : CountrySide) : List String × List CacheRow :=
  match cache, refresh with
  | some df, false =>
    if df.any (fun row => row.1.isSome) then (extractCodes df, df)
    else
      let df2 := buildCache remote
      (extractCodes df2, df2)
  | _, _ =>
    let df2 := buildCache remote
    (extractCodes df2, df2)

/-- One wide row of the WEO bulk file: the `ISO` and `WEO Subject Code` cells
plus the remaining cells aligned positionally with the header list of the
file. -/
structure WeoWideRow : Type where
  iso : Option String
  subj : Option String
  cells : List (Option PyVal)
deriving DecidableEq, Repr

/-- The WEO bulk file after decoding: the headers of the non-identifier
columns (year columns and others, as strings, which is how `read_csv`
delivers them) and the data rows.  The required-column validation of lines
36-42 cannot fail in this shape and is not modelled. -/
structure WeoFile : Type where
  headers : List String
  rows : List WeoWideRow
deriving DecidableEq, Repr

/-- One melted long record of stage 02 before the final `dropna`; `value` is
already coerced with `pd.to_numeric(..., errors="coerce")`. -/
structure WeoLong : Type where
  iso3 : Option String
  code : Option String
  year : Int
  value : Option Rat
deriving DecidableEq, Repr

/-- Python `str.isdigit` for the year-column test of line 51 (the
`isinstance(c, (int, float))` branch never fires because `read_csv` delivers
string headers). -/
def isPyDigit (s : String) : Bool :=
  s ≠ "" ∧ s.toList.all Char.isDigit

/-- Stable insertion of one `(column index, year)` pair into an
already-sorted list, placing it after equal years. -/
def insYear (x : Nat × Int) : List (Nat × Int) → List (Nat × Int)
  | [] => [x]
  | y :: t => if y.2 ≤ x.2 then y :: insYear x t else x :: y :: t

/-- Stable ascending sort by year, the embedding of `sorted(...)` at line
58. -/
def sortYears (l : List (Nat × Int)) : List (Nat × Int) :=
  l.foldl (fun acc x => insYear x acc) []

/-- Year-column identification of lines 49-61: keep headers that look like
numbers, normalize them to integers, restrict to 1900..2100 and sort
ascending; each kept column is `(position in the header list, year)`. -/
def weoYearCols (headers : List String) : List (Nat × Int) :=
  let cands := (headers.enum).filter (fun p => isPyDigit p.2)
  let normed := cands.map (fun p => (p.1, (pyIntParse p.2).getD 0))
  sortYears (normed.filter (fun p => 1900 ≤ p.2 ∧ p.2 ≤ 2100))

/-- The indicator filter of line 45: keep rows whose subject code, printed
with `astype(str)`, is a wanted registry code. -/
def weoFilterRows (wanted : List String) (rows : List WeoWideRow) :
    List WeoWideRow :=
  rows.filter (fun r => pyStr r.subj ∈ wanted)

/-- The `melt` of lines 64-79 followed by the two casts: for each kept year
column (outer loop, ascending years as pandas emits value columns in order)
and each kept row, one long record with the coerced value. -/
def weoMelt (yearCols : List (Nat × Int)) (rows : List WeoWideRow) :
    List WeoLong :=
  yearCols.flatMap (fun yc =>
    rows.map (fun r => ⟨r.iso, r.subj, yc.2, pyToNumeric (r.cells.getD yc.1 none)⟩))

/-- The final `dropna(subset=["iso3", "year", "value"])` of line 82; `year` is
always present after the cast, so only `iso3` and `value` can drop a row. -/
def weoDrop (out : List WeoLong) : List WeoLong :=
  out.filter (fun r => r.iso3.isSome ∧ r.value.isSome)

/-- Embedding of `main` of `02_parse_weo.py` (lines 44-82): filter to wanted
indicators, identify and normalize the year columns, melt, coerce and drop
incomplete rows. -/
def parseWeo (wanted : List String) (f : WeoFile) : List WeoLong :=
  weoDrop (weoMelt (weoYearCols f.headers) (weoFilterRows wanted f.rows))

/-- A merged long row of stage 03 after the metadata join with suffixes
`("", "_meta")`: the tagged observation keeps its `source` column and the
registry's `source` arrives as `source_meta`. -/
structure PanelRow3 : Type where
  iso3 : String
  year : Int
  code : String
  value : Option Rat
  source : String
  pillar : Option String
  name : Option String
  srcMeta : Option String
deriving DecidableEq, Repr

/-- The combined indicator metadata of `03_merge_wdi_weo.py` lines 38-43:
concatenate both registries, restrict to the four metadata columns,
`drop_duplicates`. -/
def stage3Meta (mW mE : List RegRow) : List RegRow :=
  pdUnique (mW ++ mE)

/-- The merged rows produced by one tagged observation in the stage-03 left
merge on `indicator_code`: one row per matching metadata row, in
metadata-frame order, or a single row with null metadata when there is no
match. -/
def mergeBlock3 (meta : List RegRow) (rt : Obs × String) : List PanelRow3 :=
  let ms := meta.filter (fun m => m.code = rt.1.code)
  if ms.isEmpty then
    [⟨rt.1.iso3, rt.1.year, rt.1.code, rt.1.value, rt.2, none, none, none⟩]
  else
    ms.map (fun m =>
      ⟨rt.1.iso3, rt.1.year, rt.1.code, rt.1.value, rt.2, m.pillar, m.name, m.source⟩)

/-- Embedding of the merge part of `main` in `03_merge_wdi_weo.py` (lines
24-48): restrict both long tables to the canonical columns, tag them with
their source, concatenate, and left-join the combined metadata on
`indicator_code`; rows without a metadata match keep null `pillar`,
`indicator_name` and `source_meta`.  The result is the persisted merged long
panel. -/
def stage3Panel (wdi weo : List Obs) (mW mE : List RegRow) : List PanelRow3 :=
  ((wdi.map (fun r => (r, "WDI"))) ++ (weo.map (fun r => (r, "WEO")))).flatMap
    (mergeBlock3 (stage3Meta mW mE))

/-- Projection of a merged stage-03 row to the columns the coverage report
reads. -/
def covView3 (p : PanelRow3) : CovIn :=
  ⟨p.iso3, p.year, p.code, p.value, p.pillar, p.name⟩

/-- The stage-03 coverage report (lines 51-88), computed from the merged
panel. -/
def stage3Cov (wdi weo : List Obs) (mW mE : List RegRow) : List CovRow :=
  covReport ((stage3Panel wdi weo mW mE).map covView3)

/-- Embedding of `main` of `04_filter_msci_em.py` (lines 14-22): keep exactly
the panel rows whose `iso3` belongs to the market list (`set(msci["iso3"])`,
whose entries may be missing in a generic CSV). -/
def filterMsci (panel : List PanelRow3) (msci : List (Option String)) :
    List PanelRow3 :=
  panel.filter (fun r => some r.iso3 ∈ msci)

/-! Helper lemmas about the merge blocks and the deduplicated lists. -/

theorem mergeBlock5_ne_nil (reg : List RegRow) (r : Obs) : mergeBlock5 reg r ≠ [] := by
  rw [mergeBlock5]
  split
  · simp
  · rename_i hms
    intro hc
    rw [List.map_eq_nil_iff] at hc
    rw [hc] at hms
    simp at hms

theorem mem_mergeBlock5_meta {reg : List RegRow} {r : Obs} {m : MRow}
    (h : m ∈ mergeBlock5 reg r) :
    m.iso3 = r.iso3 ∧ m.year = r.year ∧ m.code = r.code ∧ m.value = r.value ∧
      ((m.pillar = none ∧ m.name = none ∧ m.src = none ∧
          reg.filter (fun mm => mm.code = r.code) = []) ∨
        ∃ mm ∈ reg, mm.code = r.code ∧
          m.pillar = mm.pillar ∧ m.name = mm.name ∧ m.src = mm.source) := by
  rw [mergeBlock5] at h
  split at h
  · rename_i hms
    rw [List.mem_singleton] at h
    subst h
    rw [List.isEmpty_iff] at hms
    exact ⟨rfl, rfl, rfl, rfl, Or.inl ⟨rfl, rfl, rfl, hms⟩⟩
  · obtain ⟨mm, hmm, rfl⟩ := List.mem_map.mp h
    obtain ⟨hmr, hmc⟩ := List.mem_filter.mp hmm
    rw [decide_eq_true_eq] at hmc
    exact ⟨rfl, rfl, rfl, rfl, Or.inr ⟨mm, hmr, hmc, rfl, rfl, rfl⟩⟩

theorem mem_mergeBlock5_proj {reg : List RegRow} {r : Obs} {m : MRow}
    (h : m ∈ mergeBlock5 reg r) :
    m.iso3 = r.iso3 ∧ m.year = r.year ∧ m.code = r.code ∧ m.value = r.value := by
  obtain ⟨h1, h2, h3, h4, _⟩ := mem_mergeBlock5_meta h
  exact ⟨h1, h2, h3, h4⟩

theorem mem_mergeBlock5_of_meta {reg : List RegRow} {r : Obs} {mm : RegRow}
    (hmm : mm ∈ reg) (hc : mm.code = r.code) :
    (⟨r.iso3, r.year, r.code, r.value, mm.pillar, mm.name, mm.source⟩ : MRow) ∈
      mergeBlock5 reg r := by
  have hmf : mm ∈ reg.filter (fun m => m.code = r.code) :=
    List.mem_filter.mpr ⟨hmm, by rw [decide_eq_true_eq]; exact hc⟩
  rw [mergeBlock5]
  split
  · rename_i hms
    rw [List.isEmpty_iff] at hms
    rw [hms] at hmf
    exact absurd hmf (List.not_mem_nil mm)
  · exact List.mem_map.mpr ⟨mm, hmf, rfl⟩

theorem exists_mem_mergeLeft5 {l : List Obs} {reg : List RegRow}
    (P : String → Int → String → Option Rat → Prop) :
    (∃ m ∈ mergeLeft5 l reg, P m.iso3 m.year m.code m.value) ↔
      ∃ r ∈ l, P r.iso3 r.year r.code r.value := by
  rw [mergeLeft5]
  constructor
  · rintro ⟨m, hm, hP⟩
    rw [List.mem_flatMap] at hm
    obtain ⟨r, hr, hmr⟩ := hm
    obtain ⟨h1, h2, h3, h4⟩ := mem_mergeBlock5_proj hmr
    exact ⟨r, hr, by rwa [h1, h2, h3, h4] at hP⟩
  · rintro ⟨r, hr, hP⟩
    obtain ⟨m, hm⟩ := List.exists_mem_of_ne_nil _ (mergeBlock5_ne_nil reg r)
    obtain ⟨h1, h2, h3, h4⟩ := mem_mergeBlock5_proj hm
    exact ⟨m, List.mem_flatMap.mpr ⟨r, hr, hm⟩, by rwa [h1, h2, h3, h4]⟩

theorem mem_stage5Keep_iff {reg : List RegRow} {c : String} :
    c ∈ stage5Keep reg ↔ ∃ m ∈ regSmall reg, m.code = c := by
  rw [stage5Keep, regSmall]
  constructor
  · intro h
    obtain ⟨m, hm, hc⟩ := List.mem_map.mp h
    exact ⟨m, mem_pdUnique.mpr hm, hc⟩
  · rintro ⟨m, hm, hc⟩
    exact List.mem_map.mpr ⟨m, mem_pdUnique.mp hm, hc⟩

theorem mem_stage5Bad_iff {panel : List Obs} {reg : List RegRow} {c : String} :
    c ∈ stage5Bad panel reg ↔
      ((∃ r ∈ panel, r.code = c) ∧ ∃ m ∈ regSmall reg, m.code = c ∧ m.pillar = none) := by
  rw [stage5Bad, mem_pdUnique]
  constructor
  · intro h
    obtain ⟨m, hm, hc⟩ := List.mem_map.mp h
    obtain ⟨hmem, hpill⟩ := List.mem_filter.mp hm
    rw [decide_eq_true_eq] at hpill
    rw [stage5Merged, mergeLeft5, List.mem_flatMap] at hmem
    obtain ⟨r, hr, hblock⟩ := hmem
    obtain ⟨hrp, hkeep⟩ := List.mem_filter.mp hr
    rw [decide_eq_true_eq] at hkeep
    obtain ⟨_, _, hcode, _, hmeta⟩ := mem_mergeBlock5_meta hblock
    refine ⟨⟨r, hrp, by rw [← hcode, hc]⟩, ?_⟩
    rcases hmeta with ⟨_, _, _, hnil⟩ | ⟨mm, hmmr, hmmc, hmp, _, _⟩
    · exfalso
      obtain ⟨mm, hmm, hmmc⟩ := mem_stage5Keep_iff.mp hkeep
      have : mm ∈ (regSmall reg).filter (fun m => m.code = r.code) :=
        List.mem_filter.mpr ⟨hmm, by rw [decide_eq_true_eq]; exact hmmc⟩
      rw [hnil] at this
      exact List.not_mem_nil mm this
    · exact ⟨mm, hmmr, by rw [hmmc, ← hcode, hc], by rw [← hmp, hpill]⟩
  · rintro ⟨⟨r, hrp, hrc⟩, mm, hmm, hmmc, hmmp⟩
    have hkeep : r.code ∈ stage5Keep reg :=
      mem_stage5Keep_iff.mpr ⟨mm, hmm, by rw [hmmc, hrc]⟩
    have hrf : r ∈ stage5Filtered panel reg :=
      List.mem_filter.mpr ⟨hrp, by rw [decide_eq_true_eq]; exact hkeep⟩
    have hblock := mem_mergeBlock5_of_meta (r := r) hmm (by rw [hmmc, hrc])
    refine List.mem_map.mpr ⟨⟨r.iso3, r.year, r.code, r.value, mm.pillar, mm.name, mm.source⟩,
      List.mem_filter.mpr ⟨?_, by rw [decide_eq_true_eq]; exact hmmp⟩, hrc⟩
    rw [stage5Merged, mergeLeft5, List.mem_flatMap]
    exact ⟨r, hrf, hblock⟩

/-! Claim theorems. -/

/-- C1 (counterexample): stage 5 run on a panel whose only indicator_code has
no baseline registry entry completes successfully instead of aborting, so the
claimed fatal error does not occur. -/
theorem stage5_unknown_code_completes :
    (stage5 [⟨"IND", 2000, "ZZZ", some 1⟩]
      [⟨"GDP", some "Econ", some "gdp", some "WDI"⟩]).isOk = true := by
  decide

/-- C1 (amended): stage 5 removes rows whose indicator_code is absent from the
baseline registry before the pillar check, so it never aborts on their
account; it aborts, with the `ValueError` message naming exactly the unique
offending codes, precisely when some indicator_code present in the panel has a
registry entry with a missing pillar. -/
theorem stage5_error_iff_null_pillar (panel : List Obs) (reg : List RegRow) :
    (∀ c, c ∈ stage5Bad panel reg ↔
      ((∃ r ∈ panel, r.code = c) ∧ ∃ m ∈ regSmall reg, m.code = c ∧ m.pillar = none))
    ∧ ((∃ e, stage5 panel reg = .error e) ↔ stage5Bad panel reg ≠ [])
    ∧ (∀ e, stage5 panel reg = .error e → e = stage5ErrMsg (stage5Bad panel reg)) := by
  refine ⟨fun c => mem_stage5Bad_iff, ?_, ?_⟩
  · rw [stage5]
    by_cases hb : stage5Bad panel reg ≠ []
    · rw [if_pos hb]
      exact ⟨fun _ => hb, fun _ => ⟨_, rfl⟩⟩
    · rw [if_neg hb]
      constructor
      · rintro ⟨e, he⟩
        simp at he
      · intro hc
        exact absurd hc hb
  · intro e he
    rw [stage5] at he
    by_cases hb : stage5Bad panel reg ≠ []
    · rw [if_pos hb] at he
      injection he with h
      exact h.symm
    · rw [if_neg hb] at he
      simp at he

/-- C1 (witness for the amended theorem): on a concrete panel whose code has a
null-pillar registry entry, the run errors and the offending-code list is
exactly that code. -/
theorem stage5_error_iff_null_pillar_witness :
    ((∃ e, stage5 [⟨"IND", 2000, "GDP", some 1⟩]
        [⟨"GDP", none, some "gdp", some "WDI"⟩] = .error e) ↔
      stage5Bad [⟨"IND", 2000, "GDP", some 1⟩]
        [⟨"GDP", none, some "gdp", some "WDI"⟩] ≠ [])
    ∧ stage5Bad [⟨"IND", 2000, "GDP", some 1⟩]
        [⟨"GDP", none, some "gdp", some "WDI"⟩] = ["GDP"] :=
  ⟨(stage5_error_iff_null_pillar _ _).2.1, by decide⟩

/-- C4: the `consume` loop of the per-indicator pull emits exactly one row per
observation item that passes every skip rule, and that row is
`(iso3, year-as-integer, indicator_code, value-as-reported)`; items with a
missing country code or year, a non-whitelisted country code, or an unparsable
year are skipped. -/
theorem consume_emits_exactly_valid_rows (valid : List String) (code : String)
    (items : List WdiItem) :
    consume valid code items = items.filterMap (consumeSpecRule valid code) := by
  induction items with
  | nil => rfl
  | cons it rest ih =>
    rw [List.filterMap_cons]
    cases hiso : it.iso3 with
    | none =>
      simp [consume, consumeSpecRule, pyFalsy, hiso, ih]
    | some iso =>
      cases hdate : it.date with
      | none =>
        simp [consume, consumeSpecRule, pyFalsy, hiso, hdate, ih]
      | some d =>
        by_cases hie : iso = ""
        · simp [consume, consumeSpecRule, pyFalsy, pyStr, hiso, hdate, hie, ih]
        · by_cases hde : d = ""
          · simp [consume, consumeSpecRule, pyFalsy, pyStr, hiso, hdate, hie, hde, ih]
          · by_cases hv : iso ∈ valid
            · cases hp : pyIntParse d with
              | none =>
                simp [consume, consumeSpecRule, pyFalsy, pyStr, hiso, hdate, hie, hde, hv,
                  hp, ih]
              | some y =>
                simp [consume, consumeSpecRule, pyFalsy, pyStr, hiso, hdate, hie, hde, hv,
                  hp, ih]
            · simp [consume, consumeSpecRule, pyFalsy, pyStr, hiso, hdate, hie, hde, hv, ih]

/-- Helper: the `all_parts` fold collects exactly the payloads of the
successful outcomes, in order. -/
theorem pullParts_eq_filterMap (results : List (Except String (List WdiRow))) :
    pullParts results = results.filterMap
      (fun r => match r with | .ok df => some df | .error _ => none) := by
  rw [pullParts]
  have haux : ∀ (l : List (Except String (List WdiRow))) (acc : List (List WdiRow)),
      l.foldl
        (fun (acc : List (List WdiRow)) r =>
          match r with
          | .ok df => acc ++ [df]
          | .error _ => acc) acc
        = acc ++ l.filterMap (fun r => match r with | .ok df => some df | .error _ => none) := by
    intro l
    induction l with
    | nil => intro acc; simp
    | cons r t iht =>
      intro acc
      cases r with
      | ok df => simp [List.foldl_cons, List.filterMap_cons, iht]
      | error e => simp [List.foldl_cons, List.filterMap_cons, iht]
  simpa using haux results []

/-- C5 (counterexample): when the only indicator returns an empty result (no
exception), the run does not abort: it writes an empty output table. -/
theorem mainPull_all_empty_still_writes :
    mainPull [Except.ok []] = .ok [] := by
  decide

/-- C5 (amended): the indicator-puller run aborts with the no-data error iff
no indicator fetch succeeded, i.e. every indicator raised an exception (in
particular when the indicator list is empty); an indicator returning an empty
result counts as a success, so whenever any fetch succeeded, even with an
empty table, an output is written. -/
theorem mainPull_aborts_iff_all_raise (results : List (Except String (List WdiRow))) :
    (mainPull results = .error noDataMsg ↔ ∀ r ∈ results, r.isOk = false)
    ∧ ((∃ df, Except.ok df ∈ results) → ∃ out, mainPull results = .ok out) := by
  have hp := pullParts_eq_filterMap results
  constructor
  · rw [mainPull]
    by_cases he : (pullParts results).isEmpty
    · rw [if_pos he]
      constructor
      · intro _ r hr
        rw [List.isEmpty_iff, hp, List.filterMap_eq_nil_iff] at he
        have hnone := he r hr
        cases r with
        | ok df => exact Option.noConfusion hnone
        | error e => rfl
      · intro _; rfl
    · rw [if_neg he]
      constructor
      · intro hcontra
        simp at hcontra
      · intro hall
        exfalso
        apply he
        rw [List.isEmpty_iff, hp, List.filterMap_eq_nil_iff]
        intro r hr
        have := hall r hr
        cases r with
        | ok df => exact Bool.noConfusion this
        | error e => rfl
  · rintro ⟨df, hdf⟩
    rw [mainPull]
    rw [if_neg ?hne]
    case hne =>
      intro hc
      rw [List.isEmpty_iff, hp] at hc
      have hmem : df ∈ results.filterMap
          (fun r => match r with | .ok df => some df | .error _ => none) :=
        List.mem_filterMap.mpr ⟨.ok df, hdf, rfl⟩
      rw [hc] at hmem
      exact List.not_mem_nil df hmem
    exact ⟨_, rfl⟩

/-- C5 (witness for the amended theorem): a run whose only indicator raised
aborts with the no-data error. -/
theorem mainPull_aborts_iff_all_raise_witness :
    mainPull [Except.error "read timeout"] = .error noDataMsg :=
  (mainPull_aborts_iff_all_raise [Except.error "read timeout"]).1.mpr (by decide)

/-- C7 (counterexample): stage 4 persists a merged row with null pillar and
null indicator_name when an indicator_code has no registry match; no check
stops it. -/
theorem stage3_unmatched_code_null_pillar :
    ∃ p ∈ stage3Panel [⟨"IND", 2000, "XX", some 1⟩] [] [] [],
      p.pillar = none ∧ p.name = none := by
  decide

/-- Helper: every row of a stage-3 merge block carries the observation fields
and source tag of its left-frame row, and its metadata is either all null
with no matching registry entry, or taken verbatim from one matching
registry entry. -/
theorem mem_mergeBlock3_meta {meta : List RegRow} {rt : Obs × String} {p : PanelRow3}
    (h : p ∈ mergeBlock3 meta rt) :
    p.iso3 = rt.1.iso3 ∧ p.year = rt.1.year ∧ p.code = rt.1.code ∧ p.value = rt.1.value ∧
      p.source = rt.2 ∧
      ((p.pillar = none ∧ p.name = none ∧ p.srcMeta = none ∧
          meta.filter (fun m => m.code = rt.1.code) = []) ∨
        ∃ m ∈ meta, m.code = rt.1.code ∧
          p.pillar = m.pillar ∧ p.name = m.name ∧ p.srcMeta = m.source) := by
  rw [mergeBlock3] at h
  split at h
  · rename_i hms
    rw [List.mem_singleton] at h
    subst h
    rw [List.isEmpty_iff] at hms
    exact ⟨rfl, rfl, rfl, rfl, rfl, Or.inl ⟨rfl, rfl, rfl, hms⟩⟩
  · obtain ⟨mm, hmm, rfl⟩ := List.mem_map.mp h
    obtain ⟨hmr, hmc⟩ := List.mem_filter.mp hmm
    rw [decide_eq_true_eq] at hmc
    exact ⟨rfl, rfl, rfl, rfl, rfl, Or.inr ⟨mm, hmr, hmc, rfl, rfl, rfl⟩⟩

/-- Helper: every matching registry entry contributes its own merged row to a
stage-3 merge block. -/
theorem mem_mergeBlock3_of_meta {meta : List RegRow} {rt : Obs × String} {mm : RegRow}
    (hmm : mm ∈ meta) (hc : mm.code = rt.1.code) :
    (⟨rt.1.iso3, rt.1.year, rt.1.code, rt.1.value, rt.2, mm.pillar, mm.name, mm.source⟩ :
      PanelRow3) ∈ mergeBlock3 meta rt := by
  have hmf : mm ∈ meta.filter (fun m => m.code = rt.1.code) :=
    List.mem_filter.mpr ⟨hmm, by rw [decide_eq_true_eq]; exact hc⟩
  rw [mergeBlock3]
  split
  · rename_i hms
    rw [List.isEmpty_iff] at hms
    rw [hms] at hmf
    exact absurd hmf (List.not_mem_nil mm)
  · exact List.mem_map.mpr ⟨mm, hmf, rfl⟩

/-- Helper: a left-frame row whose code has no registry match produces exactly
one merged row, with null metadata. -/
theorem mergeBlock3_nomatch {meta : List RegRow} {rt : Obs × String}
    (h : meta.filter (fun m => m.code = rt.1.code) = []) :
    mergeBlock3 meta rt =
      [⟨rt.1.iso3, rt.1.year, rt.1.code, rt.1.value, rt.2, none, none, none⟩] := by
  rw [mergeBlock3]
  split
  · rfl
  · rename_i hms
    exfalso
    apply hms
    rw [h]
    rfl

/-- C7 (amended): every row persisted by stage 4 either has an indicator_code
with no combined-registry match and carries null pillar, indicator_name and
source_meta, or takes its pillar, indicator_name and source_meta verbatim
from one matching combined-registry entry — and the left join fans out over
every matching entry, so a code with both a complete and an incomplete entry
persists both rows.  Stage 4 performs no check: the persisted panel contains
a row with null pillar or null indicator_name exactly when some input row's
indicator_code has no combined-registry match or matches an entry whose
pillar or indicator_name is null. -/
theorem stage3_metadata_join_characterization (wdi weo : List Obs) (mW mE : List RegRow) :
    (∀ p ∈ stage3Panel wdi weo mW mE,
      ((stage3Meta mW mE).filter (fun m => m.code = p.code) = [] ∧
        p.pillar = none ∧ p.name = none ∧ p.srcMeta = none)
      ∨ (∃ m ∈ stage3Meta mW mE, m.code = p.code ∧
          p.pillar = m.pillar ∧ p.name = m.name ∧ p.srcMeta = m.source))
    ∧ ((∃ p ∈ stage3Panel wdi weo mW mE, p.pillar = none ∨ p.name = none) ↔
      ∃ r ∈ wdi ++ weo,
        ((stage3Meta mW mE).filter (fun m => m.code = r.code) = [] ∨
          ∃ m ∈ stage3Meta mW mE, m.code = r.code ∧ (m.pillar = none ∨ m.name = none))) := by
  constructor
  · intro p hp
    rw [stage3Panel, List.mem_flatMap] at hp
    obtain ⟨rt, hrt, hb⟩ := hp
    obtain ⟨_, _, hcode, _, _, hmeta⟩ := mem_mergeBlock3_meta hb
    rcases hmeta with ⟨hp1, hp2, hp3, hnil⟩ | ⟨m, hm, hmc, h1, h2, h3⟩
    · left
      refine ⟨?_, hp1, hp2, hp3⟩
      rw [hcode]
      exact hnil
    · right
      exact ⟨m, hm, by rw [hmc, hcode], h1, h2, h3⟩
  constructor
  · rintro ⟨p, hp, hnull⟩
    rw [stage3Panel, List.mem_flatMap] at hp
    obtain ⟨rt, hrt, hb⟩ := hp
    have hr1 : rt.1 ∈ wdi ++ weo := by
      rcases List.mem_append.mp hrt with hl | hl
      · obtain ⟨r, hrr, rfl⟩ := List.mem_map.mp hl
        exact List.mem_append.mpr (Or.inl hrr)
      · obtain ⟨r, hrr, rfl⟩ := List.mem_map.mp hl
        exact List.mem_append.mpr (Or.inr hrr)
    obtain ⟨_, _, hcode, _, _, hmeta⟩ := mem_mergeBlock3_meta hb
    refine ⟨rt.1, hr1, ?_⟩
    rcases hmeta with ⟨hp1, hp2, _, hnil⟩ | ⟨m, hm, hmc, h1, h2, _⟩
    · exact Or.inl hnil
    · right
      refine ⟨m, hm, hmc, ?_⟩
      rcases hnull with hn | hn
      · exact Or.inl (by rw [← h1]; exact hn)
      · exact Or.inr (by rw [← h2]; exact hn)
  · rintro ⟨r, hr, hcond⟩
    have htag : ∃ src, (r, src) ∈
        ((wdi.map (fun r => (r, "WDI"))) ++ (weo.map (fun r => (r, "WEO")))) := by
      rcases List.mem_append.mp hr with hw | hw
      · exact ⟨"WDI", List.mem_append.mpr (Or.inl (List.mem_map.mpr ⟨r, hw, rfl⟩))⟩
      · exact ⟨"WEO", List.mem_append.mpr (Or.inr (List.mem_map.mpr ⟨r, hw, rfl⟩))⟩
    obtain ⟨src, htag⟩ := htag
    rcases hcond with hnil | ⟨m, hm, hmc, hmn⟩
    · refine ⟨⟨r.iso3, r.year, r.code, r.value, src, none, none, none⟩, ?_, Or.inl rfl⟩
      rw [stage3Panel, List.mem_flatMap]
      refine ⟨(r, src), htag, ?_⟩
      rw [mergeBlock3_nomatch hnil]
      exact List.mem_singleton.mpr rfl
    · refine ⟨⟨r.iso3, r.year, r.code, r.value, src, m.pillar, m.name, m.source⟩, ?_, ?_⟩
      · rw [stage3Panel, List.mem_flatMap]
        exact ⟨(r, src), htag, mem_mergeBlock3_of_meta hm hmc⟩
      · rcases hmn with h | h
        · exact Or.inl h
        · exact Or.inr h

/-- C7 (witness for the amended theorem): a code listed with a complete entry
in one registry and a null-pillar entry in the other fans out into two
persisted rows, one of which has a null pillar, while the complete row is
also persisted; the null-row existence comes from the characterization. -/
theorem stage3_metadata_join_characterization_witness :
    (∃ p ∈ stage3Panel [⟨"IND", 2000, "GDP", some 1⟩] []
        [⟨"GDP", some "Econ", some "gdp", some "WDI"⟩]
        [⟨"GDP", none, some "gdp", some "WEO"⟩],
      p.pillar = none ∨ p.name = none)
    ∧ (⟨"IND", 2000, "GDP", some 1, "WDI", some "Econ", some "gdp", some "WDI"⟩ : PanelRow3) ∈
        stage3Panel [⟨"IND", 2000, "GDP", some 1⟩] []
          [⟨"GDP", some "Econ", some "gdp", some "WDI"⟩]
          [⟨"GDP", none, some "gdp", some "WEO"⟩] :=
  ⟨(stage3_metadata_join_characterization [⟨"IND", 2000, "GDP", some 1⟩] []
      [⟨"GDP", some "Econ", some "gdp", some "WDI"⟩]
      [⟨"GDP", none, some "gdp", some "WEO"⟩]).2.mpr (by decide),
    by decide⟩

/-- C8: country whitelist resolution is idempotent: after a first run that
found no cache and produced a non-empty whitelist, a second run without the
refresh flag takes the cache branch (for any state of the remote endpoint),
returns the identical whitelist and leaves the cache file unchanged. -/
theorem fetchReal_idempotent (remote : CountrySide)
    (h : (fetchReal none false remote).1 ≠ []) :
    ∀ remote2 : CountrySide,
      fetchReal (some (fetchReal none false remote).2) false remote2 =
        fetchReal none false remote := by
  intro remote2
  have h1 : fetchReal none false remote = (extractCodes (buildCache remote), buildCache remote) :=
    rfl
  have hany : (buildCache remote).any (fun row => row.1.isSome) = true := by
    rw [h1] at h
    by_contra hc
    apply h
    show extractCodes (buildCache remote) = []
    rw [extractCodes]
    have hnil : (buildCache remote).filterMap (fun row => row.1) = [] := by
      rw [List.filterMap_eq_nil_iff]
      intro a ha
      by_contra hna
      apply hc
      rw [List.any_eq_true]
      refine ⟨a, ha, ?_⟩
      rw [Option.isSome_iff_ne_none]
      exact hna
    rw [hnil]
    rfl
  show fetchReal (some (buildCache remote)) false remote2 = _
  rw [h1]
  simp only [fetchReal]
  rw [if_pos hany]

/-- C8 (witness): a concrete first run over one provider page caches one real
country, and the second run reproduces it from the cache with the remote
endpoint gone. -/
theorem fetchReal_idempotent_witness :
    (fetchReal none false
      ⟨1, [some [⟨some "USA", none, some "United States", some "NAC", some "High income"⟩]]⟩).1 ≠ []
    ∧ fetchReal
        (some (fetchReal none false
          ⟨1, [some [⟨some "USA", none, some "United States", some "NAC", some "High income"⟩]]⟩).2)
        false ⟨0, []⟩ =
      fetchReal none false
        ⟨1, [some [⟨some "USA", none, some "United States", some "NAC", some "High income"⟩]]⟩ :=
  ⟨by decide,
    fetchReal_idempotent
      ⟨1, [some [⟨some "USA", none, some "United States", some "NAC", some "High income"⟩]]⟩
      (by decide) ⟨0, []⟩⟩

/-- C9: the stage-05 membership pre-filter makes rows with non-baseline codes
irrelevant: the whole stage gives the same result on the panel and on the
panel restricted to baseline codes (so removed rows can never raise the
error), and every indicator code appearing in the coverage report or in the
wide-table columns belongs to the baseline registry. -/
theorem stage5_prefilter_invariant (panel : List Obs) (reg : List RegRow) :
    stage5 panel reg = stage5 (panel.filter (fun r => r.code ∈ stage5Keep reg)) reg
    ∧ (∀ c ∈ stage5Cov panel reg, c.code ∈ stage5Keep reg)
    ∧ (∀ c ∈ stage5WideCols panel reg, c ∈ stage5Keep reg) := by
  have hf : stage5Filtered (panel.filter (fun r => r.code ∈ stage5Keep reg)) reg =
      stage5Filtered panel reg := by
    rw [stage5Filtered, stage5Filtered]
    exact List.filter_eq_self.mpr (fun a ha => (List.mem_filter.mp ha).2)
  have hm : stage5Merged (panel.filter (fun r => r.code ∈ stage5Keep reg)) reg =
      stage5Merged panel reg := by
    rw [stage5Merged, stage5Merged, hf]
  refine ⟨?_, ?_, ?_⟩
  · have hb : stage5Bad (panel.filter (fun r => r.code ∈ stage5Keep reg)) reg =
        stage5Bad panel reg := by
      rw [stage5Bad, stage5Bad, hm]
    have hcv : stage5Cov (panel.filter (fun r => r.code ∈ stage5Keep reg)) reg =
        stage5Cov panel reg := by
      rw [stage5Cov, stage5Cov, hm]
    have hwi : stage5WideIndex (panel.filter (fun r => r.code ∈ stage5Keep reg)) reg =
        stage5WideIndex panel reg := by
      rw [stage5WideIndex, stage5WideIndex, hm]
    have hwc : stage5WideCols (panel.filter (fun r => r.code ∈ stage5Keep reg)) reg =
        stage5WideCols panel reg := by
      rw [stage5WideCols, stage5WideCols, hm]
    rw [stage5, stage5, hb, hcv, hwi, hwc]
  · intro c hc
    rw [stage5Cov] at hc
    simp only [covReport] at hc
    obtain ⟨k, hk, rfl⟩ := List.mem_map.mp hc
    rw [covKeys, mem_pdUnique] at hk
    obtain ⟨v, hv, rfl⟩ := List.mem_map.mp hk
    obtain ⟨m, hmm, rfl⟩ := List.mem_map.mp (List.mem_filter.mp hv).1
    show m.code ∈ stage5Keep reg
    rw [stage5Merged] at hmm
    have hex : ∃ mm ∈ mergeLeft5 (stage5Filtered panel reg) (regSmall reg),
        mm.code = m.code := ⟨m, hmm, rfl⟩
    obtain ⟨r, hr, hrc⟩ :=
      (exists_mem_mergeLeft5 (fun _ _ cd _ => cd = m.code)).mp hex
    have hk2 := (List.mem_filter.mp hr).2
    rw [decide_eq_true_eq] at hk2
    rw [← hrc]
    exact hk2
  · intro c hc
    rw [stage5WideCols, mem_pdUnique] at hc
    obtain ⟨m, hmv, rfl⟩ := List.mem_map.mp hc
    have hmm := (List.mem_filter.mp hmv).1
    rw [stage5Merged] at hmm
    have hex : ∃ mm ∈ mergeLeft5 (stage5Filtered panel reg) (regSmall reg),
        mm.code = m.code := ⟨m, hmm, rfl⟩
    obtain ⟨r, hr, hrc⟩ :=
      (exists_mem_mergeLeft5 (fun _ _ cd _ => cd = m.code)).mp hex
    have hk2 := (List.mem_filter.mp hr).2
    rw [decide_eq_true_eq] at hk2
    rw [← hrc]
    exact hk2

/-- C9 (witness): on a concrete panel with one baseline and one non-baseline
code, the stage gives the same result as on the pre-filtered panel. -/
theorem stage5_prefilter_invariant_witness :
    stage5 [⟨"CHN", 2015, "GDP", some 1⟩, ⟨"CHN", 2015, "ZZZ", some 2⟩]
        [⟨"GDP", some "Econ", some "gdp", some "WDI"⟩] =
      stage5 (([⟨"CHN", 2015, "GDP", some 1⟩, ⟨"CHN", 2015, "ZZZ", some 2⟩] : List Obs).filter
        (fun r => r.code ∈ stage5Keep [⟨"GDP", some "Econ", some "gdp", some "WDI"⟩]))
        [⟨"GDP", some "Econ", some "gdp", some "WDI"⟩] :=
  (stage5_prefilter_invariant
    [⟨"CHN", 2015, "GDP", some 1⟩, ⟨"CHN", 2015, "ZZZ", some 2⟩]
    [⟨"GDP", some "Econ", some "gdp", some "WDI"⟩]).1

/-- C10: the market filter of stage 04 is a pure row selection: its output is
a sublist of the input panel (row order and every column value unchanged, no
other transformation), a row is kept exactly when it lies in the panel and
its iso3 is in the market list, and each row is kept with exactly its input
multiplicity, all others dropped. -/
theorem filterMsci_pure_row_selection (panel : List PanelRow3)
    (msci : List (Option String)) :
    List.Sublist (filterMsci panel msci) panel
    ∧ (∀ r : PanelRow3, r ∈ filterMsci panel msci ↔ r ∈ panel ∧ some r.iso3 ∈ msci)
    ∧ (∀ r : PanelRow3, (filterMsci panel msci).count r =
        if some r.iso3 ∈ msci then panel.count r else 0) := by
  refine ⟨List.filter_sublist panel, ?_, ?_⟩
  · intro r
    rw [filterMsci, List.mem_filter, decide_eq_true_eq]
  · intro r
    by_cases hmem : some r.iso3 ∈ msci
    · rw [if_pos hmem, filterMsci]
      exact List.count_filter (by rw [decide_eq_true_eq]; exact hmem)
    · rw [if_neg hmem, List.count_eq_zero]
      intro hc
      apply hmem
      have := (List.mem_filter.mp hc).2
      rwa [decide_eq_true_eq] at this

/-- C10 (witness): a market row is kept and a non-market row is dropped, via
the membership characterization at a concrete panel. -/
theorem filterMsci_pure_row_selection_witness :
    (⟨"BRA", 2020, "GDP", some 1, "WDI", some "Econ", some "gdp", some "WDI"⟩ : PanelRow3) ∈
      filterMsci
        [⟨"BRA", 2020, "GDP", some 1, "WDI", some "Econ", some "gdp", some "WDI"⟩,
          ⟨"USA", 2020, "GDP", some 2, "WDI", some "Econ", some "gdp", some "WDI"⟩]
        [some "BRA"]
    ∧ (⟨"USA", 2020, "GDP", some 2, "WDI", some "Econ", some "gdp", some "WDI"⟩ : PanelRow3) ∉
      filterMsci
        [⟨"BRA", 2020, "GDP", some 1, "WDI", some "Econ", some "gdp", some "WDI"⟩,
          ⟨"USA", 2020, "GDP", some 2, "WDI", some "Econ", some "gdp", some "WDI"⟩]
        [some "BRA"] :=
  ⟨((filterMsci_pure_row_selection _ _).2.1 _).mpr ⟨by decide, by decide⟩, by decide⟩

/-- Helper: under pairwise-distinct `(iso3, year, indicator_code)` triples,
the rows selected by any predicate that fixes the indicator code have
pairwise-distinct `(iso3, year)` pairs, so their count is at most the number
of distinct pairs of the whole table. -/
theorem filter_length_le_grid (rows : List CovIn)
    (h : (rows.map (fun r => (r.iso3, r.year, r.code))).Nodup)
    (p : CovIn → Bool) (c : String)
    (hc : ∀ r, p r = true → r.code = c) :
    (rows.filter p).length ≤ (pdUnique (rows.map (fun r => (r.iso3, r.year)))).length := by
  have hs : List.Sublist (rows.filter p) rows := List.filter_sublist rows
  have htr : ((rows.filter p).map (fun r => (r.iso3, r.year, r.code))).Nodup :=
    h.sublist (hs.map _)
  have hnd : (rows.filter p).Nodup := List.Nodup.of_map _ htr
  have hinj := List.inj_on_of_nodup_map htr
  have hpairs : ((rows.filter p).map (fun r => (r.iso3, r.year))).Nodup := by
    refine List.Nodup.map_on ?_ hnd
    intro x hx y hy hxy
    refine hinj hx hy ?_
    have hcx : x.code = c := hc x (List.mem_filter.mp hx).2
    have hcy : y.code = c := hc y (List.mem_filter.mp hy).2
    have h1 : x.iso3 = y.iso3 := congrArg Prod.fst hxy
    have h2 : x.year = y.year := congrArg Prod.snd hxy
    refine Prod.ext h1 (Prod.ext h2 ?_)
    rw [hcx, hcy]
  have hsub : ((rows.filter p).map (fun r => (r.iso3, r.year))) ⊆
      pdUnique (rows.map (fun r => (r.iso3, r.year))) := by
    intro a ha
    rw [mem_pdUnique]
    obtain ⟨x, hx, rfl⟩ := List.mem_map.mp ha
    exact List.mem_map.mpr ⟨x, hs.subset hx, rfl⟩
  calc (rows.filter p).length
      = ((rows.filter p).map (fun r => (r.iso3, r.year))).length :=
        (List.length_map _ _).symm
    _ ≤ _ := (List.subperm_of_subset hpairs hsub).length_le

/-- C2 (amended): in every coverage report (both the stage-4 and stage-5
reports are `covReport`/`windowCov` applied to the respective merged panel),
each group's coverage is computed over a positive grid and equals
`100 * non_missing / grid_n`; it is always nonnegative, and it is at most 100
provided the merged panel has no duplicate `(iso3, year, indicator_code)`
triple (with duplicates it can exceed 100).  Each windowed coverage likewise
equals `100 * non_missing / grid_win` over a positive window grid, with the
same bounds; and when a window's grid size is 0 the window report is empty,
so no division by zero ever happens (the merged windowed columns are then
null, not 0). -/
theorem covReport_formula_bounds (rows : List CovIn) :
    (∀ c ∈ covReport rows,
      0 < c.gridN
      ∧ c.covPct = 100 * (c.nonMissing : Rat) / (c.gridN : Rat)
      ∧ 0 ≤ c.covPct
      ∧ ((rows.map (fun r => (r.iso3, r.year, r.code))).Nodup → c.covPct ≤ 100))
    ∧ (∀ lo hi, ∀ p ∈ windowCov rows lo hi,
      0 < windowGrid rows lo hi
      ∧ p.2 = 100 * (windowNM rows lo hi p.1 : Rat) / (windowGrid rows lo hi : Rat)
      ∧ 0 ≤ p.2
      ∧ ((rows.map (fun r => (r.iso3, r.year, r.code))).Nodup → p.2 ≤ 100))
    ∧ (∀ lo hi, windowGrid rows lo hi = 0 → windowCov rows lo hi = []) := by
  refine ⟨?_, ?_, ?_⟩
  · intro c hc
    rw [covReport] at hc
    obtain ⟨k, hk, rfl⟩ := List.mem_map.mp hc
    have hgrid : 0 < covGrid rows := by
      rw [covKeys, mem_pdUnique] at hk
      obtain ⟨v, hv, _⟩ := List.mem_map.mp hk
      have hvrow : v ∈ rows := (List.mem_filter.mp hv).1
      have hmemp : (v.iso3, v.year) ∈ rows.map (fun r => (r.iso3, r.year)) :=
        List.mem_map.mpr ⟨v, hvrow, rfl⟩
      have hne : rows.map (fun r => (r.iso3, r.year)) ≠ [] := by
        intro h0
        rw [h0] at hmemp
        exact List.not_mem_nil _ hmemp
      rw [covGrid]
      exact List.length_pos.mpr (pdUnique_ne_nil hne)
    refine ⟨hgrid, by ring, by positivity, ?_⟩
    intro hnd
    have hle : covNonMissing rows k ≤ covGrid rows := by
      rw [covNonMissing, List.filter_filter, covGrid]
      refine filter_length_le_grid rows hnd _ k.2.1 ?_
      intro r hr
      rw [Bool.and_eq_true] at hr
      have h1 := hr.1
      rw [decide_eq_true_eq] at h1
      rw [← h1]
    have hgq : (0 : Rat) < (covGrid rows : Rat) := by exact_mod_cast hgrid
    have hdiv : (covNonMissing rows k : Rat) / (covGrid rows : Rat) ≤ 1 := by
      rw [div_le_one hgq]
      exact_mod_cast hle
    show (covNonMissing rows k : Rat) / (covGrid rows : Rat) * 100 ≤ 100
    nlinarith
  · intro lo hi p hp
    rw [windowCov] at hp
    obtain ⟨c0, hc0, rfl⟩ := List.mem_map.mp hp
    have hgrid : 0 < windowGrid rows lo hi := by
      rw [mem_pdUnique] at hc0
      obtain ⟨v, hv, _⟩ := List.mem_map.mp hc0
      have hvrow : v ∈ windowRows rows lo hi := (List.mem_filter.mp hv).1
      have hmemp : (v.iso3, v.year) ∈ (windowRows rows lo hi).map (fun r => (r.iso3, r.year)) :=
        List.mem_map.mpr ⟨v, hvrow, rfl⟩
      have hne : (windowRows rows lo hi).map (fun r => (r.iso3, r.year)) ≠ [] := by
        intro h0
        rw [h0] at hmemp
        exact List.not_mem_nil _ hmemp
      rw [windowGrid]
      exact List.length_pos.mpr (pdUnique_ne_nil hne)
    have hval : (if windowGrid rows lo hi = 0 then (0 : Rat)
        else ((windowNM rows lo hi c0 : Rat) / (windowGrid rows lo hi : Rat)) * 100)
        = ((windowNM rows lo hi c0 : Rat) / (windowGrid rows lo hi : Rat)) * 100 :=
      if_neg (Nat.pos_iff_ne_zero.mp hgrid)
    refine ⟨hgrid, by rw [hval]; ring, by rw [hval]; positivity, ?_⟩
    intro hnd
    have hwnd : ((windowRows rows lo hi).map (fun r => (r.iso3, r.year, r.code))).Nodup :=
      hnd.sublist ((List.filter_sublist rows).map _)
    have hle : windowNM rows lo hi c0 ≤ windowGrid rows lo hi := by
      rw [windowNM, windowGrid]
      refine filter_length_le_grid (windowRows rows lo hi) hwnd _ c0 ?_
      intro r hr
      rw [decide_eq_true_eq] at hr
      exact hr.2
    have hgq : (0 : Rat) < (windowGrid rows lo hi : Rat) := by exact_mod_cast hgrid
    have hdiv : (windowNM rows lo hi c0 : Rat) / (windowGrid rows lo hi : Rat) ≤ 1 := by
      rw [div_le_one hgq]
      exact_mod_cast hle
    show (if windowGrid rows lo hi = 0 then (0 : Rat)
        else ((windowNM rows lo hi c0 : Rat) / (windowGrid rows lo hi : Rat)) * 100) ≤ 100
    rw [hval]
    nlinarith
  · intro lo hi hg
    rw [windowGrid] at hg
    have hnil : (windowRows rows lo hi).map (fun r => (r.iso3, r.year)) = [] := by
      by_contra hne
      exact (pdUnique_ne_nil hne) (List.length_eq_zero.mp hg)
    have hwin : windowRows rows lo hi = [] := List.map_eq_nil_iff.mp hnil
    rw [windowCov, hwin]
    rfl

/-- C2 (counterexample): on a stage-5 panel holding two non-missing values for
the same `(iso3, year, indicator_code)`, the group's coverage_pct is 200, so
coverage is not always in the claimed `[0, 100]` range. -/
theorem stage5Cov_duplicate_exceeds_100 :
    ∃ c ∈ stage5Cov [⟨"CHN", 2015, "GDP", some 1⟩, ⟨"CHN", 2015, "GDP", some 2⟩]
      [⟨"GDP", some "Econ", some "gdp", some "WDI"⟩],
      ¬ (c.covPct ≤ 100) := by
  decide

/-- C2 (witness for the amended theorem): a duplicate-free concrete report row
satisfies the formula and both bounds. -/
theorem covReport_formula_bounds_witness :
    (⟨some "Econ", "GDP", some "gdp", 1, 1, 100, some 100, some 100⟩ : CovRow) ∈
      covReport [⟨"CHN", 2015, "GDP", some 1, some "Econ", some "gdp"⟩]
    ∧ 0 < (⟨some "Econ", "GDP", some "gdp", 1, 1, 100, some 100, some 100⟩ : CovRow).gridN
    ∧ 0 ≤ (⟨some "Econ", "GDP", some "gdp", 1, 1, 100, some 100, some 100⟩ : CovRow).covPct
    ∧ (⟨some "Econ", "GDP", some "gdp", 1, 1, 100, some 100, some 100⟩ : CovRow).covPct ≤ 100 := by
  have h := (covReport_formula_bounds
    [⟨"CHN", 2015, "GDP", some 1, some "Econ", some "gdp"⟩]).1
    ⟨some "Econ", "GDP", some "gdp", 1, 1, 100, some 100, some 100⟩ (by decide)
  exact ⟨by decide, h.1, h.2.2.1, h.2.2.2 (by decide)⟩

/-- Helper: the first matching cell value of the pivot is insensitive to the
metadata join: group-first over the merged rows equals group-first over the
underlying filtered panel, because a left-merge block preserves the
observation fields and is never empty. -/
theorem head_filter_mergeLeft5 (l : List Obs) (reg : List RegRow)
    (iso : String) (y : Int) (c : String) :
    (((mergeLeft5 l reg).filter
      (fun m => m.iso3 = iso ∧ m.year = y ∧ m.code = c ∧ m.value.isSome)).head?).bind
      (fun m => m.value)
    = ((l.filter
        (fun r => r.iso3 = iso ∧ r.year = y ∧ r.code = c ∧ r.value.isSome)).head?).bind
      (fun r => r.value) := by
  induction l with
  | nil => rfl
  | cons r t ih =>
    rw [mergeLeft5, List.flatMap_cons, List.filter_append, ← mergeLeft5]
    by_cases hr : (r.iso3 = iso ∧ r.year = y ∧ r.code = c ∧ r.value.isSome = true)
    · have hall : ∀ m ∈ mergeBlock5 reg r,
          (decide (m.iso3 = iso ∧ m.year = y ∧ m.code = c ∧ m.value.isSome = true)) = true := by
        intro m hm
        obtain ⟨h1, h2, h3, h4⟩ := mem_mergeBlock5_proj hm
        rw [decide_eq_true_eq]
        exact ⟨by rw [h1]; exact hr.1, by rw [h2]; exact hr.2.1,
          by rw [h3]; exact hr.2.2.1, by rw [h4]; exact hr.2.2.2⟩
      rw [List.filter_eq_self.mpr hall]
      obtain ⟨b, bs, hb⟩ := List.exists_cons_of_ne_nil (mergeBlock5_ne_nil reg r)
      have hbv : b.value = r.value :=
        (mem_mergeBlock5_proj (by rw [hb]; exact List.mem_cons_self b bs)).2.2.2
      rw [hb, List.cons_append, List.head?_cons,
        List.filter_cons_of_pos (by rw [decide_eq_true_eq]; exact hr), List.head?_cons]
      simp only [Option.some_bind]
      rw [hbv]
    · have hnone : (mergeBlock5 reg r).filter
          (fun m => m.iso3 = iso ∧ m.year = y ∧ m.code = c ∧ m.value.isSome) = [] := by
        rw [List.filter_eq_nil_iff]
        intro m hm hc
        obtain ⟨h1, h2, h3, h4⟩ := mem_mergeBlock5_proj hm
        rw [decide_eq_true_eq] at hc
        exact hr ⟨by rw [← h1]; exact hc.1, by rw [← h2]; exact hc.2.1,
          by rw [← h3]; exact hc.2.2.1, by rw [← h4]; exact hc.2.2.2⟩
      rw [hnone, List.nil_append,
        List.filter_cons_of_neg (by rw [decide_eq_true_eq]; exact hr)]
      exact ih

/-- C3 (counterexample): with two conflicting values for `("AAA", 2000, "X")`
and an all-null indicator `"Y"`, the stage-5 pivot completes without error and
keeps the first value, but the wide table has no column for `"Y"` even though
`"Y"` is an indicator_code of the panel: `pivot_table` drops all-NaN columns,
so the wide table does not have one column per indicator_code. -/
theorem stage5_pivot_drops_allnull_column :
    (stage5 [⟨"AAA", 2000, "X", some 1⟩, ⟨"AAA", 2000, "X", some 2⟩, ⟨"AAA", 2000, "Y", none⟩]
      [⟨"X", some "P", some "x", none⟩, ⟨"Y", some "P", some "y", none⟩]).isOk = true
    ∧ "Y" ∈ ([⟨"AAA", 2000, "X", some 1⟩, ⟨"AAA", 2000, "X", some 2⟩,
        ⟨"AAA", 2000, "Y", none⟩] : List Obs).map (fun r => r.code)
    ∧ "Y" ∉ stage5WideCols
        [⟨"AAA", 2000, "X", some 1⟩, ⟨"AAA", 2000, "X", some 2⟩, ⟨"AAA", 2000, "Y", none⟩]
        [⟨"X", some "P", some "x", none⟩, ⟨"Y", some "P", some "y", none⟩]
    ∧ stage5Cell
        [⟨"AAA", 2000, "X", some 1⟩, ⟨"AAA", 2000, "X", some 2⟩, ⟨"AAA", 2000, "Y", none⟩]
        [⟨"X", some "P", some "x", none⟩, ⟨"Y", some "P", some "y", none⟩]
        "AAA" 2000 "X" = some 1 := by
  decide

/-- C3 (amended): when the pillar check passes, stage 5 completes and persists
the wide table whose index holds exactly the `(iso3, year)` pairs carrying at
least one non-missing value, whose columns hold exactly the baseline
indicator codes carrying at least one non-missing value, and whose cell for
`(iso3, year, code)` is the first non-missing observation for that
combination in panel order (`aggfunc="first"`: one deterministic value, no
error and no averaging on conflicting duplicates). -/
theorem stage5_pivot_first_nonnull (panel : List Obs) (reg : List RegRow)
    (hbad : stage5Bad panel reg = []) :
    stage5 panel reg =
      .ok ⟨stage5Cov panel reg, stage5WideIndex panel reg, stage5WideCols panel reg⟩
    ∧ (∀ iso y, (iso, y) ∈ stage5WideIndex panel reg ↔
        ∃ r ∈ panel, r.code ∈ stage5Keep reg ∧ r.iso3 = iso ∧ r.year = y ∧ r.value.isSome)
    ∧ (∀ c, c ∈ stage5WideCols panel reg ↔
        ∃ r ∈ panel, r.code ∈ stage5Keep reg ∧ r.code = c ∧ r.value.isSome)
    ∧ (∀ iso y c, stage5Cell panel reg iso y c =
        (((stage5Filtered panel reg).filter
          (fun r => r.iso3 = iso ∧ r.year = y ∧ r.code = c ∧ r.value.isSome)).head?).bind
          (fun r => r.value)) := by
  refine ⟨?_, ?_, ?_, ?_⟩
  · rw [stage5, if_neg (fun hne => hne hbad)]
  · intro iso y
    rw [stage5WideIndex, mem_pdUnique]
    constructor
    · intro h
      obtain ⟨m, hm, heq⟩ := List.mem_map.mp h
      obtain ⟨hmm, hms⟩ := List.mem_filter.mp hm
      rw [stage5Merged] at hmm
      have hex : ∃ mm ∈ mergeLeft5 (stage5Filtered panel reg) (regSmall reg),
          (mm.iso3 = m.iso3 ∧ mm.year = m.year ∧ mm.value = m.value) := ⟨m, hmm, rfl, rfl, rfl⟩
      obtain ⟨rr, hrr, p1, p2, p3⟩ :=
        (exists_mem_mergeLeft5 (fun i yy _ v => i = m.iso3 ∧ yy = m.year ∧ v = m.value)).mp hex
      obtain ⟨hrp, hkeep⟩ := List.mem_filter.mp hrr
      rw [decide_eq_true_eq] at hkeep
      have hi : m.iso3 = iso := congrArg Prod.fst heq
      have hy : m.year = y := congrArg Prod.snd heq
      exact ⟨rr, hrp, hkeep, by rw [p1, hi], by rw [p2, hy], by rw [p3]; exact hms⟩
    · rintro ⟨r, hrp, hkeep, h1, h2, h3⟩
      have hex : ∃ m ∈ mergeLeft5 (stage5Filtered panel reg) (regSmall reg),
          (m.iso3 = r.iso3 ∧ m.year = r.year ∧ m.value = r.value) :=
        (exists_mem_mergeLeft5 (fun i yy _ v => i = r.iso3 ∧ yy = r.year ∧ v = r.value)).mpr
          ⟨r, List.mem_filter.mpr ⟨hrp, by rw [decide_eq_true_eq]; exact hkeep⟩, rfl, rfl, rfl⟩
      obtain ⟨m, hm, p1, p2, p3⟩ := hex
      refine List.mem_map.mpr ⟨m, List.mem_filter.mpr ⟨?_, ?_⟩, ?_⟩
      · rw [stage5Merged]
        exact hm
      · rw [p3]
        exact h3
      · rw [p1, p2, h1, h2]
  · intro c
    rw [stage5WideCols, mem_pdUnique]
    constructor
    · intro h
      obtain ⟨m, hm, heq⟩ := List.mem_map.mp h
      obtain ⟨hmm, hms⟩ := List.mem_filter.mp hm
      rw [stage5Merged] at hmm
      have hex : ∃ mm ∈ mergeLeft5 (stage5Filtered panel reg) (regSmall reg),
          (mm.code = m.code ∧ mm.value = m.value) := ⟨m, hmm, rfl, rfl⟩
      obtain ⟨rr, hrr, p1, p2⟩ :=
        (exists_mem_mergeLeft5 (fun _ _ cd v => cd = m.code ∧ v = m.value)).mp hex
      obtain ⟨hrp, hkeep⟩ := List.mem_filter.mp hrr
      rw [decide_eq_true_eq] at hkeep
      exact ⟨rr, hrp, hkeep, by rw [p1, heq], by rw [p2]; exact hms⟩
    · rintro ⟨r, hrp, hkeep, h1, h2⟩
      have hex : ∃ m ∈ mergeLeft5 (stage5Filtered panel reg) (regSmall reg),
          (m.code = r.code ∧ m.value = r.value) :=
        (exists_mem_mergeLeft5 (fun _ _ cd v => cd = r.code ∧ v = r.value)).mpr
          ⟨r, List.mem_filter.mpr ⟨hrp, by rw [decide_eq_true_eq]; exact hkeep⟩, rfl, rfl⟩
      obtain ⟨m, hm, p1, p2⟩ := hex
      refine List.mem_map.mpr ⟨m, List.mem_filter.mpr ⟨?_, ?_⟩, ?_⟩
      · rw [stage5Merged]
        exact hm
      · rw [p2]
        exact h2
      · rw [p1, h1]
  · intro iso y c
    rw [stage5Cell, stage5Merged]
    exact head_filter_mergeLeft5 _ _ iso y c

/-- C3 (witness for the amended theorem): on a concrete panel with two
conflicting values, the pillar check passes, the cell equation instantiates,
and the cell holds the first value. -/
theorem stage5_pivot_first_nonnull_witness :
    stage5Bad [⟨"AAA", 2000, "X", some 1⟩, ⟨"AAA", 2000, "X", some 2⟩]
      [⟨"X", some "P", some "x", none⟩] = []
    ∧ stage5Cell [⟨"AAA", 2000, "X", some 1⟩, ⟨"AAA", 2000, "X", some 2⟩]
        [⟨"X", some "P", some "x", none⟩] "AAA" 2000 "X" =
      ((((stage5Filtered [⟨"AAA", 2000, "X", some 1⟩, ⟨"AAA", 2000, "X", some 2⟩]
          [⟨"X", some "P", some "x", none⟩]).filter
        (fun r => r.iso3 = "AAA" ∧ r.year = 2000 ∧ r.code = "X" ∧ r.value.isSome)).head?).bind
        (fun r => r.value))
    ∧ stage5Cell [⟨"AAA", 2000, "X", some 1⟩, ⟨"AAA", 2000, "X", some 2⟩]
        [⟨"X", some "P", some "x", none⟩] "AAA" 2000 "X" = some 1 :=
  ⟨by decide,
    (stage5_pivot_first_nonnull
      [⟨"AAA", 2000, "X", some 1⟩, ⟨"AAA", 2000, "X", some 2⟩]
      [⟨"X", some "P", some "x", none⟩] (by decide)).2.2.2 "AAA" 2000 "X",
    by decide⟩

/-- C6: melting a 3-row wide fixture with two year columns (plus non-year
columns) produces the six candidate long tuples in melt order (year-ascending
blocks, rows in file order), with the year header cast to an integer and each
value coerced with `to_numeric`; then exactly those candidates whose country
and coerced value are present survive the final `dropna` — a non-numeric or
missing value, or a missing country, drops the row instead of raising. -/
theorem parseWeo_fixture_melt
    (wanted : List String) (i1 i2 i3 c1 c2 c3 : String)
    (a1 a2 a3 b1 b2 b3 : Option PyVal)
    (hc1 : c1 ∈ wanted) (hc2 : c2 ∈ wanted) (hc3 : c3 ∈ wanted) :
    parseWeo wanted
      ⟨["Country", "2001", "2000", "Units"],
        [⟨some i1, some c1, [some (.str "x"), b1, a1, none]⟩,
         ⟨some i2, some c2, [some (.str "x"), b2, a2, none]⟩,
         ⟨some i3, some c3, [some (.str "x"), b3, a3, none]⟩]⟩
    = ([⟨some i1, some c1, 2000, pyToNumeric a1⟩,
        ⟨some i2, some c2, 2000, pyToNumeric a2⟩,
        ⟨some i3, some c3, 2000, pyToNumeric a3⟩,
        ⟨some i1, some c1, 2001, pyToNumeric b1⟩,
        ⟨some i2, some c2, 2001, pyToNumeric b2⟩,
        ⟨some i3, some c3, 2001, pyToNumeric b3⟩] : List WeoLong).filter
        (fun r => r.iso3.isSome ∧ r.value.isSome) := by
  have hf : weoFilterRows wanted
      [⟨some i1, some c1, [some (.str "x"), b1, a1, none]⟩,
       ⟨some i2, some c2, [some (.str "x"), b2, a2, none]⟩,
       ⟨some i3, some c3, [some (.str "x"), b3, a3, none]⟩] =
      [⟨some i1, some c1, [some (.str "x"), b1, a1, none]⟩,
       ⟨some i2, some c2, [some (.str "x"), b2, a2, none]⟩,
       ⟨some i3, some c3, [some (.str "x"), b3, a3, none]⟩] := by
    rw [weoFilterRows]
    refine List.filter_eq_self.mpr ?_
    intro r hr
    rw [decide_eq_true_eq]
    simp only [List.mem_cons, List.not_mem_nil, or_false] at hr
    rcases hr with rfl | rfl | rfl
    · exact hc1
    · exact hc2
    · exact hc3
  rw [parseWeo, hf]
  rfl

/-- C6 (witness): with all-numeric cells the fixture melts into exactly six
long rows with the correct tuples; turning one value into a non-numeric
string drops exactly that row, with no error. -/
theorem parseWeo_fixture_melt_witness :
    parseWeo ["C1", "C2", "C3"]
      ⟨["Country", "2001", "2000", "Units"],
        [⟨some "AAA", some "C1", [some (.str "x"), some (.num 11), some (.num 10), none]⟩,
         ⟨some "BBB", some "C2", [some (.str "x"), some (.num 21), some (.num 20), none]⟩,
         ⟨some "CCC", some "C3", [some (.str "x"), some (.num 31), some (.num 30), none]⟩]⟩
    = [⟨some "AAA", some "C1", 2000, some 10⟩, ⟨some "BBB", some "C2", 2000, some 20⟩,
       ⟨some "CCC", some "C3", 2000, some 30⟩, ⟨some "AAA", some "C1", 2001, some 11⟩,
       ⟨some "BBB", some "C2", 2001, some 21⟩, ⟨some "CCC", some "C3", 2001, some 31⟩]
    ∧ parseWeo ["C1", "C2", "C3"]
      ⟨["Country", "2001", "2000", "Units"],
        [⟨some "AAA", some "C1", [some (.str "x"), some (.num 11), some (.str "n/a"), none]⟩,
         ⟨some "BBB", some "C2", [some (.str "x"), some (.num 21), some (.num 20), none]⟩,
         ⟨some "CCC", some "C3", [some (.str "x"), some (.num 31), some (.num 30), none]⟩]⟩
    = [⟨some "BBB", some "C2", 2000, some 20⟩, ⟨some "CCC", some "C3", 2000, some 30⟩,
       ⟨some "AAA", some "C1", 2001, some 11⟩, ⟨some "BBB", some "C2", 2001, some 21⟩,
       ⟨some "CCC", some "C3", 2001, some 31⟩] :=
  ⟨(parseWeo_fixture_melt ["C1", "C2", "C3"] "AAA" "BBB" "CCC" "C1" "C2" "C3"
      (some (.num 10)) (some (.num 20)) (some (.num 30))
      (some (.num 11)) (some (.num 21)) (some (.num 31))
      (by decide) (by decide) (by decide)).trans (by decide),
    (parseWeo_fixture_melt ["C1", "C2", "C3"] "AAA" "BBB" "CCC" "C1" "C2" "C3"
      (some (.str "n/a")) (some (.num 20)) (some (.num 30))
      (some (.num 11)) (some (.num 21)) (some (.num 31))
      (by decide) (by decide) (by decide)).trans (by decide)⟩
